import Mathlib

/-!
Verification of the ReflectAI backend (mayankbot01/ReflectAI).

The repository ships three Python files: `backend/app/main.py` (FastAPI
routing), `backend/app/core/config.py` (settings) and
`backend/app/core/logging_config.py` (logging). The two service modules
imported by `main.py` — `app.services.sentiment.SentimentAnalyzer` and
`app.services.insights.InsightsGenerator` — are not part of the shipped
sources, so their behaviour is modelled from the specification, as marked
on each such definition. Everything taken from `main.py` or `config.py`
is a direct shallow embedding of that source.
-/

namespace ReflectAI

/-- From src/backend/app/core/config.py (class Settings): the configuration
values consumed by the two services, with the defaults of the source. -/
structure Settings where
  MAX_TEXT_LENGTH : Nat
  MIN_ENTRIES_FOR_INSIGHTS : Nat
  deriving DecidableEq, Repr

/-- From src/backend/app/core/config.py: `MAX_TEXT_LENGTH: int = Field(default=5000, ...)`
and `MIN_ENTRIES_FOR_INSIGHTS: int = Field(default=3, ...)`. -/
def defaultSettings : Settings where
  MAX_TEXT_LENGTH := 5000
  MIN_ENTRIES_FOR_INSIGHTS := 3

/-- The configured maximum text length for analysis (default of the source). -/
def MAX_TEXT_LENGTH : Nat := defaultSettings.MAX_TEXT_LENGTH

/-- The configured minimum number of mood entries for insights (default of the source). -/
def MIN_ENTRIES_FOR_INSIGHTS : Nat := defaultSettings.MIN_ENTRIES_FOR_INSIGHTS

/-- From src/backend/app/main.py (class InsightsRequest):
`moods: list[str] = Field(..., min_items=1, ...)`. The HTTP request model
admits any mood history with at least one element. -/
def InsightsRequest_min_items : Nat := 1

/-- Error conditions the Insights service can signal (spec section 7 taxonomy). -/
inductive InsightsError where
  | InsufficientData
  | InternalFailure
  deriving DecidableEq, Repr

/-- Modelled from the spec: the Mood Valence Table of
`app/services/insights.py` (module absent from src/) — a static mapping from
each mood label to a valence in [-1, 1]. The values for happy, sad, stressed
and anxious are the ones the spec states; neutral and surprised complete the
closed vocabulary. -/
def valenceTable : List (String × Rat) :=
  [("happy", 8/10), ("sad", -6/10), ("stressed", -4/10), ("anxious", -5/10),
   ("neutral", 0), ("surprised", 3/10)]

/-- Valence lookup for a mood label; `none` means the label is unmapped. -/
def valence? (m : String) : Option Rat :=
  valenceTable.lookup m

/-- The closed application mood vocabulary: the keys of the valence table
(spec section 3: every MoodLabel in the vocabulary has exactly one valence entry). -/
def moodVocabulary : List String :=
  valenceTable.map Prod.fst

/-- The valence of a mapped label, defaulting to 0; used only to state means
of histories that are known to be fully mapped. -/
def valence0 (m : String) : Rat :=
  (valence? m).getD 0

/-- Modelled from the spec: summing the valences of a half of the history,
failing loudly with InternalFailure on the first unmapped label (spec
section 4.2 failure modes: never silently default to zero valence). -/
def sumValences : List String → Except InsightsError Rat
  | [] => .ok 0
  | m :: rest =>
    match valence? m with
    | some v => (sumValences rest).map (fun s => v + s)
    | none => .error .InternalFailure

/-- Modelled from the spec: the mean valence of a sub-history. -/
def meanValence (moods : List String) : Except InsightsError Rat :=
  (sumValences moods).map (fun s => s / (moods.length : Rat))

/-- Modelled from the spec: the single fixed trend threshold (spec section
4.2 step 2; the exact constant is left open by the spec, a small positive
value is assumed). -/
def TREND_THRESHOLD : Rat := 1/10

/-- Frequency count of a label in a history. -/
def countLabel (moods : List String) (m : String) : Nat :=
  moods.countP (fun x => x == m)

/-- Index of the first occurrence of a label in a history. -/
def firstIndex (m : String) (moods : List String) : Nat :=
  moods.findIdx (fun x => x == m)

/-- Modelled from the spec: the dominant emotion of a history — the label
with the highest frequency count, ties broken by earliest first occurrence
in the chronological (oldest-first) sequence (spec section 4.2 step 1). -/
def dominantEmotion (moods : List String) : String :=
  let maxCount := (moods.map (countLabel moods)).foldl max 0
  match moods.find? (fun m => countLabel moods m == maxCount) with
  | some m => m
  | none => ""

/-- Modelled from the spec: the generic default suggestion used when the
rule table has no entry for a combination (spec section 4.2 step 3). -/
def DEFAULT_SUGGESTION : String :=
  "Take a few minutes today to reflect on your feelings and note one thing you are grateful for."

/-- Modelled from the spec: the suggestion rule table, keyed by
(dominant_emotion, mood_trend) pairs; deliberately not exhaustive. -/
def suggestionTable : List ((String × String) × String) :=
  [(("sad", "worsening"), "Your mood has been declining. Consider reaching out to a friend or taking a short walk outside."),
   (("sad", "stable"), "Persistent sadness can weigh on you. A brief journaling session about a good memory may help."),
   (("anxious", "worsening"), "Anxiety seems to be building. Try a slow breathing exercise for a few minutes."),
   (("stressed", "worsening"), "Stress is trending up. Schedule a short break and step away from your screen."),
   (("happy", "improving"), "Things are looking up. Keep doing what works for you and note it in your journal."),
   (("happy", "stable"), "You have been feeling consistently good. Celebrate a small win today.")]

/-- Modelled from the spec: suggestion lookup with fallback to the generic
default when no entry exists for the combination. -/
def suggestFor (dominant trend : String) : String :=
  match suggestionTable.lookup (dominant, trend) with
  | some s => s
  | none => DEFAULT_SUGGESTION

/-- From src/backend/app/main.py (class InsightsResponse) and spec section 3:
the result of the Insights service. -/
structure InsightsResult where
  suggestion : String
  mood_trend : String
  dominant_emotion : String
  deriving DecidableEq, Repr

/-- Modelled from the spec: trend classification of the later-mean minus
earlier-mean difference against the fixed threshold (spec section 4.2 step 2). -/
def classifyTrend (delta : Rat) : String :=
  if TREND_THRESHOLD < delta then "improving"
  else if delta < -TREND_THRESHOLD then "worsening"
  else "stable"

/-- Modelled from the spec: `InsightsGenerator.generate` of
`app/services/insights.py` (module absent from src/). Guards the minimum
entry count, splits the history into an earlier half and a later half (the
extra entry joining the later half when the length is odd), classifies the
trend from the mean valences, picks the dominant emotion and looks up a
suggestion. -/
def generate (moods : List String) : Except InsightsError InsightsResult :=
  if moods.length < MIN_ENTRIES_FOR_INSIGHTS then
    .error .InsufficientData
  else do
    let half := moods.length / 2
    let earlierMean ← meanValence (moods.take half)
    let laterMean ← meanValence (moods.drop half)
    let trend := classifyTrend (laterMean - earlierMean)
    let dominant := dominantEmotion moods
    .ok ⟨suggestFor dominant trend, trend, dominant⟩

/-- Spec-side formula (from the words of the spec, for comparison with
`generate`): the earlier half of a history. -/
def specEarlierHalf (moods : List String) : List String :=
  moods.take (moods.length / 2)

/-- Spec-side formula (from the words of the spec, for comparison with
`generate`): the later half of a history, receiving the extra entry when the
length is odd. -/
def specLaterHalf (moods : List String) : List String :=
  moods.drop (moods.length / 2)

/-- Spec-side formula (from the words of the spec, for comparison with
`generate`): the mean valence of a fully mapped sub-history. -/
def specMean (l : List String) : Rat :=
  (l.map valence0).sum / (l.length : Rat)

/-- Error conditions the Sentiment service can signal (spec sections 4.1 and 7). -/
inductive SentimentError where
  | LengthExceeded
  | EmptyText
  | ServiceUnavailable
  | InternalFailure
  deriving DecidableEq, Repr

/-- RawEmotionScores (spec section 3): the probability distribution the
classifier returns, as label-score pairs in the fixed label order. -/
abbrev RawEmotionScores := List (String × Rat)

/-- The Emotion Classifier collaborator (spec section 6): one operation
mapping text to a distribution; it can fail only with an internal error. -/
abbrev Classifier := String → Except Unit RawEmotionScores

/-- From src/backend/app/main.py (class SentimentResponse) and spec section 3:
the result of the Sentiment service. -/
structure SentimentResult where
  mood : String
  confidence : Rat
  emotions : RawEmotionScores
  deriving DecidableEq, Repr

/-- The fixed raw label set of the emotion model (spec section 2). -/
def rawLabels : List String :=
  ["anger", "disgust", "fear", "joy", "neutral", "sadness", "surprise"]

/-- Modelled from the spec: the explicit total mapping from the raw
classifier label set to the application mood vocabulary
(`app/services/sentiment.py`, module absent from src/). -/
def rawToMood : List (String × String) :=
  [("anger", "stressed"), ("disgust", "stressed"), ("fear", "anxious"),
   ("joy", "happy"), ("neutral", "neutral"), ("sadness", "sad"),
   ("surprise", "surprised")]

/-- Mapping lookup from a raw classifier label to a mood label. -/
def mapLabel (raw : String) : Option String :=
  rawToMood.lookup raw

/-- Modelled from the spec: the tolerance within which the returned emotion
distribution must sum to 1 (spec section 8, a small tolerance for floating
rounding). -/
def TOLERANCE : Rat := 1/100

/-- One step of the top-label selection: a candidate replaces the best entry
so far only when its score is strictly higher, so on exact ties the earlier
entry in the fixed label order wins. -/
def betterScore (best : Option (String × Rat)) (p : String × Rat) :
    Option (String × Rat) :=
  match best with
  | none => some p
  | some q => if q.2 < p.2 then some p else some q

/-- Modelled from the spec: selection of the top-scoring raw label; on exact
ties the earlier entry in the fixed label order wins (spec section 4.1 step 2). -/
def topScore (scores : RawEmotionScores) : Option (String × Rat) :=
  scores.foldl betterScore none

/-- Modelled from the spec: emptiness after trimming — a Python string strips
to empty exactly when every character is whitespace. -/
def strippedEmpty (text : String) : Bool :=
  text.data.all Char.isWhitespace

/-- Modelled from the spec: `SentimentAnalyzer.analyze` of
`app/services/sentiment.py` (module absent from src/). Validates length and
non-emptiness, requires the classifier to be loaded, runs inference, picks
the top raw label, maps it to a mood and shapes the result; an unmapped
winning label fails loudly. -/
def analyze (classifier : Option Classifier) (text : String) :
    Except SentimentError SentimentResult :=
  if MAX_TEXT_LENGTH < text.length then .error .LengthExceeded
  else if strippedEmpty text then .error .EmptyText
  else
    match classifier with
    | none => .error .ServiceUnavailable
    | some classify =>
      match classify text with
      | .error _ => .error .InternalFailure
      | .ok scores =>
        match topScore scores with
        | none => .error .InternalFailure
        | some (rawLabel, score) =>
          match mapLabel rawLabel with
          | some mood => .ok ⟨mood, score, scores⟩
          | none => .error .InternalFailure

/-- An HTTP error response, as produced by the exception handler of
src/backend/app/main.py: a status code and a detail string. -/
structure HTTPError where
  status_code : Nat
  detail : String
  deriving DecidableEq, Repr

/-- From src/backend/app/main.py (analyze_sentiment): `if not sentiment_analyzer`
raises 503 with detail "Sentiment analysis service unavailable"; any exception
from `sentiment_analyzer.analyze(entry.text)` is caught and re-raised as 500
with detail "Failed to analyze sentiment". -/
def analyze_sentiment (sentiment_analyzer : Option Classifier) (text : String) :
    Except HTTPError SentimentResult :=
  match sentiment_analyzer with
  | none => .error ⟨503, "Sentiment analysis service unavailable"⟩
  | some clf =>
    match analyze (some clf) text with
    | .ok r => .ok r
    | .error _ => .error ⟨500, "Failed to analyze sentiment"⟩

/-- From src/backend/app/main.py (health_check): the body of the health
response. -/
structure HealthResponse where
  status : String
  environment : String
  model_loaded : Bool
  insights_available : Bool
  deriving DecidableEq, Repr

/-- From src/backend/app/main.py (health_check): the endpoint returns with the
default 200 status and reports whether the two module-level globals are set. -/
def health_check (sentiment_analyzer : Option Classifier)
    (insights_generator : Option Unit) (environment : String) :
    Nat × HealthResponse :=
  (200, ⟨"ok", environment, sentiment_analyzer.isSome, insights_generator.isSome⟩)

/-! ### General list lemmas -/

theorem init_le_foldl_max (l : List Nat) (init : Nat) : init ≤ l.foldl max init := by
  induction l generalizing init with
  | nil => exact Nat.le_refl _
  | cons a t ih =>
    exact Nat.le_trans (Nat.le_max_left init a) (ih (max init a))

theorem mem_le_foldl_max (l : List Nat) (init : Nat) (a : Nat) (ha : a ∈ l) :
    a ≤ l.foldl max init := by
  induction l generalizing init with
  | nil => cases ha
  | cons b t ih =>
    rcases List.mem_cons.mp ha with rfl | hmem
    · exact Nat.le_trans (Nat.le_max_right init a) (init_le_foldl_max t (max init a))
    · exact ih (max init b) hmem

theorem foldl_max_mem_or_init (l : List Nat) (init : Nat) :
    l.foldl max init = init ∨ l.foldl max init ∈ l := by
  induction l generalizing init with
  | nil => exact Or.inl rfl
  | cons a t ih =>
    rcases ih (max init a) with heq | hmem
    · rcases max_choice init a with hmax | hmax
      · exact Or.inl (by rw [List.foldl_cons, heq, hmax])
      · exact Or.inr (by rw [List.foldl_cons, heq, hmax]; exact List.mem_cons_self _ _)
    · exact Or.inr (List.mem_cons_of_mem _ hmem)

theorem lookup_mem_values {α β : Type} [BEq α] (l : List (α × β)) (k : α) (v : β)
    (h : l.lookup k = some v) : v ∈ l.map Prod.snd := by
  induction l with
  | nil => simp [List.lookup] at h
  | cons p t ih =>
    by_cases hb : (k == p.1) = true
    · simp [List.lookup, hb] at h
      simp [h]
    · rw [Bool.not_eq_true] at hb
      simp [List.lookup, hb] at h
      exact List.mem_cons_of_mem _ (ih h)

theorem find?_eq_some_of_mem {α : Type} (p : α → Bool) (l : List α) (x : α)
    (hx : x ∈ l) (hp : p x = true) : ∃ y, l.find? p = some y := by
  induction l with
  | nil => cases hx
  | cons a t ih =>
    by_cases ha : p a = true
    · exact ⟨a, by simp [List.find?_cons, ha]⟩
    · rw [Bool.not_eq_true] at ha
      rcases List.mem_cons.mp hx with rfl | hmem
      · rw [hp] at ha; cases ha
      · rcases ih hmem with ⟨y, hy⟩
        exact ⟨y, by simp [List.find?_cons, ha, hy]⟩

theorem findIdx_le_of_find?_eq {α : Type} [BEq α] [LawfulBEq α] (p : α → Bool)
    (l : List α) (d : α) (h : l.find? p = some d) (m : α) (hm : m ∈ l)
    (hpm : p m = true) :
    l.findIdx (fun x => x == d) ≤ l.findIdx (fun x => x == m) := by
  induction l with
  | nil => cases hm
  | cons a t ih =>
    by_cases ha : p a = true
    · have hd : a = d := by simpa [List.find?_cons, ha] using h
      subst hd
      simp [List.findIdx_cons]
    · rw [Bool.not_eq_true] at ha
      have ht : t.find? p = some d := by simpa [List.find?_cons, ha] using h
      have hpd : p d = true := List.find?_some ht
      have hda : (a == d) = false := by
        refine beq_eq_false_iff_ne.mpr ?_
        intro hadeq
        rw [hadeq, hpd] at ha; cases ha
      have hma : m ≠ a := by
        intro hmaeq
        rw [hmaeq, ha] at hpm; cases hpm
      have ham : (a == m) = false := beq_eq_false_iff_ne.mpr (Ne.symm hma)
      have hmem : m ∈ t := by
        rcases List.mem_cons.mp hm with rfl | hmem
        · exact absurd rfl hma
        · exact hmem
      simp only [List.findIdx_cons, hda, ham, cond_false]
      exact Nat.succ_le_succ (ih ht hmem)

/-! ### Lemmas about the dominant-emotion selection -/

theorem countLabel_pos_of_mem (moods : List String) (m : String) (hm : m ∈ moods) :
    1 ≤ countLabel moods m := by
  have : 0 < moods.countP (fun x => x == m) :=
    List.countP_pos_iff.mpr ⟨m, hm, by simp⟩
  exact this

theorem dominantEmotion_spec (moods : List String) (h : moods ≠ []) :
    dominantEmotion moods ∈ moods ∧
    (∀ m ∈ moods, countLabel moods m ≤ countLabel moods (dominantEmotion moods)) ∧
    (∀ m ∈ moods, countLabel moods m = countLabel moods (dominantEmotion moods) →
      firstIndex (dominantEmotion moods) moods ≤ firstIndex m moods) := by
  have hmax : ∃ x ∈ moods, countLabel moods x =
      (moods.map (countLabel moods)).foldl max 0 := by
    rcases foldl_max_mem_or_init (moods.map (countLabel moods)) 0 with h0 | hmem
    · rcases List.exists_mem_of_ne_nil moods h with ⟨m0, hm0⟩
      have h1 : 1 ≤ countLabel moods m0 := countLabel_pos_of_mem moods m0 hm0
      have h2 : countLabel moods m0 ≤ (moods.map (countLabel moods)).foldl max 0 :=
        mem_le_foldl_max _ 0 _ (List.mem_map_of_mem _ hm0)
      omega
    · rcases List.mem_map.mp hmem with ⟨x, hx, hcx⟩
      exact ⟨x, hx, hcx⟩
  rcases hmax with ⟨x, hx, hcx⟩
  rcases find?_eq_some_of_mem
      (fun m => countLabel moods m == (moods.map (countLabel moods)).foldl max 0)
      moods x hx (by simpa using hcx) with ⟨d, hd⟩
  have hdom : dominantEmotion moods = d := by
    simp only [dominantEmotion]
    rw [hd]
  have hdmem : d ∈ moods := List.mem_of_find?_eq_some hd
  have hdc : countLabel moods d = (moods.map (countLabel moods)).foldl max 0 := by
    simpa using List.find?_some hd
  refine ⟨hdom ▸ hdmem, ?_, ?_⟩
  · intro m hm
    rw [hdom, hdc]
    exact mem_le_foldl_max _ 0 _ (List.mem_map_of_mem _ hm)
  · intro m hm hcm
    rw [hdom] at hcm ⊢
    exact findIdx_le_of_find?_eq _ moods d hd m hm (by simp [hcm, hdc])

/-! ### Lemmas about valence sums and the trend classification -/

theorem sumValences_ok_of_mapped (l : List String)
    (h : ∀ m ∈ l, (valence? m).isSome) :
    sumValences l = .ok ((l.map valence0).sum) := by
  induction l with
  | nil => rfl
  | cons m t ih =>
    rcases Option.isSome_iff_exists.mp (h m (List.mem_cons_self m t)) with ⟨v, hv⟩
    have ht := ih (fun x hx => h x (List.mem_cons_of_mem m hx))
    simp only [sumValences, hv, ht, Except.map, List.map_cons, List.sum_cons]
    have : valence0 m = v := by simp [valence0, hv]
    rw [this]

theorem sumValences_ok_inv (l : List String) (s : Rat)
    (h : sumValences l = .ok s) :
    (∀ m ∈ l, (valence? m).isSome) ∧ s = (l.map valence0).sum := by
  induction l generalizing s with
  | nil =>
    simp only [sumValences, Except.ok.injEq] at h
    subst h
    exact ⟨fun m hm => absurd hm (List.not_mem_nil m), by simp⟩
  | cons m t ih =>
    cases hv : valence? m with
    | none => simp [sumValences, hv] at h
    | some v =>
      cases ht : sumValences t with
      | error e => simp [sumValences, hv, ht, Except.map] at h
      | ok s2 =>
        simp only [sumValences, hv, ht, Except.map, Except.ok.injEq] at h
        rcases ih s2 ht with ⟨hmap, hsum⟩
        refine ⟨?_, ?_⟩
        · intro x hx
          rcases List.mem_cons.mp hx with rfl | hmem
          · simp [hv]
          · exact hmap x hmem
        · have hv0 : valence0 m = v := by simp [valence0, hv]
          simp [← h, hsum, hv0]

theorem sumValences_error_of_unmapped (l : List String) (m : String)
    (hm : m ∈ l) (hv : valence? m = none) :
    sumValences l = .error .InternalFailure := by
  induction l with
  | nil => cases hm
  | cons a t ih =>
    cases hva : valence? a with
    | none => simp [sumValences, hva]
    | some v =>
      have hmem : m ∈ t := by
        rcases List.mem_cons.mp hm with rfl | hmem
        · rw [hva] at hv; cases hv
        · exact hmem
      simp [sumValences, hva, ih hmem, Except.map]

theorem sumValences_error_inv (l : List String) (e : InsightsError)
    (h : sumValences l = .error e) : e = .InternalFailure := by
  induction l generalizing e with
  | nil => simp [sumValences] at h
  | cons m t ih =>
    cases hv : valence? m with
    | none =>
      simp only [sumValences, hv] at h
      cases h; rfl
    | some v =>
      cases ht : sumValences t with
      | error e2 =>
        have h2 : e2 = e := by simpa [sumValences, hv, ht, Except.map] using h
        exact h2 ▸ ih e2 ht
      | ok s => simp [sumValences, hv, ht, Except.map] at h

theorem TREND_THRESHOLD_pos : 0 < TREND_THRESHOLD := by
  norm_num [TREND_THRESHOLD]

theorem classifyTrend_iff (d : Rat) :
    (classifyTrend d = "improving" ↔ TREND_THRESHOLD < d) ∧
    (classifyTrend d = "worsening" ↔ d < -TREND_THRESHOLD) ∧
    (classifyTrend d = "stable" ↔ ¬ TREND_THRESHOLD < d ∧ ¬ d < -TREND_THRESHOLD) := by
  have hθ := TREND_THRESHOLD_pos
  unfold classifyTrend
  split_ifs with h1 h2
  · exact ⟨⟨fun _ => h1, fun _ => rfl⟩,
      iff_of_false (by decide) (by linarith),
      iff_of_false (by decide) (fun hc => hc.1 h1)⟩
  · exact ⟨iff_of_false (by decide) h1,
      ⟨fun _ => h2, fun _ => rfl⟩,
      iff_of_false (by decide) (fun hc => hc.2 h2)⟩
  · exact ⟨iff_of_false (by decide) h1,
      iff_of_false (by decide) h2,
      ⟨fun _ => ⟨h1, h2⟩, fun _ => rfl⟩⟩

/-- Inversion of a successful `generate` call: the guard passed, every label
is mapped, and the three result fields are the ones computed from the halves,
the dominant emotion and the rule table. -/
theorem generate_ok_inv (moods : List String) (r : InsightsResult)
    (h : generate moods = .ok r) :
    MIN_ENTRIES_FOR_INSIGHTS ≤ moods.length ∧
    (∀ m ∈ moods, (valence? m).isSome) ∧
    r.mood_trend =
      classifyTrend (specMean (specLaterHalf moods) - specMean (specEarlierHalf moods)) ∧
    r.dominant_emotion = dominantEmotion moods ∧
    r.suggestion = suggestFor (dominantEmotion moods) r.mood_trend := by
  unfold generate at h
  split_ifs at h with hlen
  have hge : MIN_ENTRIES_FOR_INSIGHTS ≤ moods.length := Nat.le_of_not_lt hlen
  cases h1 : sumValences (moods.take (moods.length / 2)) with
  | error e =>
    simp [meanValence, h1, Except.map, Except.bind, Bind.bind] at h
  | ok s1 =>
    cases h2 : sumValences (moods.drop (moods.length / 2)) with
    | error e =>
      simp [meanValence, h1, h2, Except.map, Except.bind, Bind.bind] at h
    | ok s2 =>
      simp only [meanValence, h1, h2, Except.map, Bind.bind, Except.bind,
        Except.ok.injEq] at h
      rcases sumValences_ok_inv _ _ h1 with ⟨hmap1, hs1⟩
      rcases sumValences_ok_inv _ _ h2 with ⟨hmap2, hs2⟩
      have hmap : ∀ m ∈ moods, (valence? m).isSome := by
        intro m hm
        rw [← List.take_append_drop (moods.length / 2) moods] at hm
        rcases List.mem_append.mp hm with hmem | hmem
        · exact hmap1 m hmem
        · exact hmap2 m hmem
      have htrend : r.mood_trend =
          classifyTrend (specMean (specLaterHalf moods) - specMean (specEarlierHalf moods)) := by
        rw [← h]
        simp [specMean, specLaterHalf, specEarlierHalf, hs1, hs2]
      refine ⟨hge, hmap, htrend, ?_, ?_⟩
      · rw [← h]
      · rw [← h]

/-! ### Lemmas about the top-score selection and the analyzer -/

theorem foldl_betterScore_mem (l : List (String × Rat)) :
    ∀ (acc : Option (String × Rat)) (p : String × Rat),
      l.foldl betterScore acc = some p → p ∈ l ∨ acc = some p := by
  induction l with
  | nil => exact fun acc p h => Or.inr h
  | cons a t ih =>
    intro acc p h
    rcases ih (betterScore acc a) p h with hmem | hacc
    · exact Or.inl (List.mem_cons_of_mem a hmem)
    · cases acc with
      | none =>
        simp only [betterScore, Option.some.injEq] at hacc
        exact Or.inl (hacc ▸ List.mem_cons_self a t)
      | some q =>
        simp only [betterScore] at hacc
        split_ifs at hacc
        · simp only [Option.some.injEq] at hacc
          exact Or.inl (hacc ▸ List.mem_cons_self a t)
        · exact Or.inr hacc

theorem foldl_betterScore_max (l : List (String × Rat)) :
    ∀ (acc : Option (String × Rat)) (p : String × Rat),
      l.foldl betterScore acc = some p →
      (∀ q ∈ l, q.2 ≤ p.2) ∧ (∀ q, acc = some q → q.2 ≤ p.2) := by
  induction l with
  | nil =>
    intro acc p h
    exact ⟨fun q hq => absurd hq (List.not_mem_nil q),
      fun q hq => by rw [hq] at h; cases h; exact le_refl _⟩
  | cons a t ih =>
    intro acc p h
    rcases ih (betterScore acc a) p h with ⟨htail, hacc⟩
    have ha : a.2 ≤ p.2 := by
      cases acc with
      | none => exact hacc a rfl
      | some q =>
        by_cases hlt : q.2 < a.2
        · exact hacc a (by simp [betterScore, hlt])
        · exact le_trans (le_of_not_lt hlt) (hacc q (by simp [betterScore, hlt]))
    refine ⟨?_, ?_⟩
    · intro q hq
      rcases List.mem_cons.mp hq with rfl | hmem
      · exact ha
      · exact htail q hmem
    · intro q hq
      cases acc with
      | none => cases hq
      | some q0 =>
        cases hq
        by_cases hlt : q.2 < a.2
        · exact le_trans (le_of_lt hlt) ha
        · exact hacc q (by simp [betterScore, hlt])

theorem topScore_mem (scores : RawEmotionScores) (p : String × Rat)
    (h : topScore scores = some p) : p ∈ scores := by
  rcases foldl_betterScore_mem scores none p h with hmem | hacc
  · exact hmem
  · cases hacc

theorem topScore_max (scores : RawEmotionScores) (p : String × Rat)
    (h : topScore scores = some p) : ∀ q ∈ scores, q.2 ≤ p.2 :=
  (foldl_betterScore_max scores none p h).1

/-- Inversion of a successful `analyze` call: the validations passed, the
classifier was loaded and returned a distribution, and the result fields are
the top raw label's score, its mapped mood and the full distribution. -/
theorem analyze_ok_inv (classifier : Option Classifier) (text : String)
    (r : SentimentResult) (h : analyze classifier text = .ok r) :
    text.length ≤ MAX_TEXT_LENGTH ∧ strippedEmpty text = false ∧
    ∃ classify scores rawLabel,
      classifier = some classify ∧ classify text = .ok scores ∧
      topScore scores = some (rawLabel, r.confidence) ∧
      mapLabel rawLabel = some r.mood ∧ r.emotions = scores := by
  unfold analyze at h
  split_ifs at h with hlen hempty
  refine ⟨Nat.le_of_not_lt hlen, Bool.not_eq_true _ ▸ hempty, ?_⟩
  cases classifier with
  | none => cases h
  | some classify =>
    simp only [] at h
    cases hct : classify text with
    | error e => rw [hct] at h; cases h
    | ok scores =>
      rw [hct] at h
      simp only [] at h
      cases hts : topScore scores with
      | none => rw [hts] at h; cases h
      | some p =>
        obtain ⟨rawLabel, score⟩ := p
        rw [hts] at h
        simp only [] at h
        cases hm : mapLabel rawLabel with
        | none => rw [hm] at h; cases h
        | some mood =>
          rw [hm] at h
          simp only [] at h
          cases h
          exact ⟨classify, scores, rawLabel, rfl, hct, hts, hm, rfl⟩

/-! ### Claim theorems -/

/-- C1: for every mood history accepted by `generate`, the trend is obtained
by splitting the history into an earlier half and a later half (the extra
entry joining the later half when the length is odd) and comparing the later
mean valence minus the earlier mean valence against a fixed positive
threshold: above it improving, below its negation worsening, otherwise
stable; the history [happy, happy, sad, stressed, anxious] is classified
worsening. -/
theorem C1_trend_half_split :
    0 < TREND_THRESHOLD ∧
    (∀ moods : List String, moods.length % 2 = 1 →
      (specLaterHalf moods).length = (specEarlierHalf moods).length + 1) ∧
    (∀ moods r, generate moods = .ok r →
      ((r.mood_trend = "improving" ↔
         TREND_THRESHOLD <
           specMean (specLaterHalf moods) - specMean (specEarlierHalf moods)) ∧
       (r.mood_trend = "worsening" ↔
         specMean (specLaterHalf moods) - specMean (specEarlierHalf moods) <
           -TREND_THRESHOLD) ∧
       (r.mood_trend = "stable" ↔
         (¬ TREND_THRESHOLD <
            specMean (specLaterHalf moods) - specMean (specEarlierHalf moods) ∧
          ¬ specMean (specLaterHalf moods) - specMean (specEarlierHalf moods) <
            -TREND_THRESHOLD)))) ∧
    generate ["happy", "happy", "sad", "stressed", "anxious"] =
      .ok ⟨DEFAULT_SUGGESTION, "worsening", "happy"⟩ := by
  refine ⟨TREND_THRESHOLD_pos, ?_, ?_, by with_unfolding_all rfl⟩
  · intro moods hodd
    simp only [specLaterHalf, specEarlierHalf, List.length_drop, List.length_take]
    omega
  · intro moods r h
    rw [(generate_ok_inv moods r h).2.2.1]
    exact classifyTrend_iff _

/-- Witness for C1: the odd-length split and the worsening classification at
the example history of the spec. -/
theorem C1_trend_half_split_witness :
    (specLaterHalf ["happy", "happy", "sad", "stressed", "anxious"]).length =
      (specEarlierHalf ["happy", "happy", "sad", "stressed", "anxious"]).length + 1 ∧
    ((InsightsResult.mk DEFAULT_SUGGESTION "worsening" "happy").mood_trend = "worsening" ↔
      specMean (specLaterHalf ["happy", "happy", "sad", "stressed", "anxious"]) -
        specMean (specEarlierHalf ["happy", "happy", "sad", "stressed", "anxious"]) <
        -TREND_THRESHOLD) :=
  ⟨C1_trend_half_split.2.1 _ (by decide),
   (C1_trend_half_split.2.2.1 _ _ (by with_unfolding_all rfl)).2.1⟩

/-- C2: for every mood history accepted by `generate`, the dominant emotion
occurs in the history, has the highest frequency count, and among labels
tying for the highest count it is the one whose first occurrence is earliest
in the chronological sequence; [sad, anxious, sad, anxious] resolves to sad. -/
theorem C2_dominant_emotion :
    (∀ moods r, generate moods = .ok r →
      r.dominant_emotion ∈ moods ∧
      (∀ m ∈ moods, countLabel moods m ≤ countLabel moods r.dominant_emotion) ∧
      (∀ m ∈ moods, countLabel moods m = countLabel moods r.dominant_emotion →
        firstIndex r.dominant_emotion moods ≤ firstIndex m moods)) ∧
    (∃ r, generate ["sad", "anxious", "sad", "anxious"] = .ok r ∧
      r.dominant_emotion = "sad") := by
  constructor
  · intro moods r h
    obtain ⟨hge, -, -, hdom, -⟩ := generate_ok_inv moods r h
    have hne : moods ≠ [] := by
      intro hnil
      rw [hnil] at hge
      simp [MIN_ENTRIES_FOR_INSIGHTS, defaultSettings] at hge
    rw [hdom]
    exact dominantEmotion_spec moods hne
  · exact ⟨⟨"Persistent sadness can weigh on you. A brief journaling session about a good memory may help.",
      "stable", "sad"⟩, by with_unfolding_all rfl, rfl⟩

/-- Witness for C2: the tie between sad and anxious in the example history is
broken in favour of sad, the earlier-occurring label. -/
theorem C2_dominant_emotion_witness :
    firstIndex "sad" ["sad", "anxious", "sad", "anxious"] ≤
      firstIndex "anxious" ["sad", "anxious", "sad", "anxious"] :=
  (C2_dominant_emotion.1 _
      ⟨"Persistent sadness can weigh on you. A brief journaling session about a good memory may help.",
        "stable", "sad"⟩
      (by with_unfolding_all rfl)).2.2 "anxious" (by decide) (by decide)

/-- C3: `generate` succeeds for every fully mapped history of length exactly
MIN_ENTRIES_FOR_INSIGHTS and signals InsufficientData for every shorter
history; the configured default threshold is 3, while the HTTP request model
admits histories of length 1, so the guard lives in the service itself. -/
theorem C3_min_entries_guard :
    MIN_ENTRIES_FOR_INSIGHTS = 3 ∧
    InsightsRequest_min_items = 1 ∧
    InsightsRequest_min_items < MIN_ENTRIES_FOR_INSIGHTS ∧
    (∀ moods : List String, moods.length = MIN_ENTRIES_FOR_INSIGHTS →
      (∀ m ∈ moods, (valence? m).isSome) → ∃ r, generate moods = .ok r) ∧
    (∀ moods : List String, moods.length < MIN_ENTRIES_FOR_INSIGHTS →
      generate moods = .error .InsufficientData) := by
  refine ⟨rfl, rfl, by decide, ?_, ?_⟩
  · intro moods hlen hmap
    have h1 := sumValences_ok_of_mapped (moods.take (moods.length / 2))
      (fun m hm => hmap m (List.take_subset _ _ hm))
    have h2 := sumValences_ok_of_mapped (moods.drop (moods.length / 2))
      (fun m hm => hmap m (List.drop_subset _ _ hm))
    cases hg : generate moods with
    | ok r => exact ⟨r, rfl⟩
    | error e =>
      exfalso
      unfold generate at hg
      rw [if_neg (by omega)] at hg
      simp [meanValence, h1, h2, Except.map, Bind.bind, Except.bind] at hg
  · intro moods hlen
    unfold generate
    rw [if_pos hlen]

/-- Witness for C3: a fully mapped history of length 3 succeeds and a history
of length 2 is rejected with InsufficientData. -/
theorem C3_min_entries_guard_witness :
    (∃ r, generate ["sad", "anxious", "neutral"] = .ok r) ∧
    generate ["sad", "anxious"] = .error .InsufficientData :=
  ⟨C3_min_entries_guard.2.2.2.1 _ (by decide) (by decide),
   C3_min_entries_guard.2.2.2.2 _ (by decide)⟩

/-- C4: every (dominant_emotion, mood_trend) pair yields a non-empty
suggestion: pairs without a table entry fall back to the non-empty generic
default, and every successful generate call returns a non-empty suggestion. -/
theorem C4_suggestion_nonempty :
    DEFAULT_SUGGESTION ≠ "" ∧
    (∀ dominant trend, suggestionTable.lookup (dominant, trend) = none →
      suggestFor dominant trend = DEFAULT_SUGGESTION) ∧
    (∀ dominant trend, suggestFor dominant trend ≠ "") ∧
    (∀ moods r, generate moods = .ok r → r.suggestion ≠ "") := by
  have hvals : ∀ v ∈ suggestionTable.map Prod.snd, v ≠ "" := by decide
  have hsf : ∀ dominant trend, suggestFor dominant trend ≠ "" := by
    intro dominant trend
    unfold suggestFor
    cases hlk : suggestionTable.lookup (dominant, trend) with
    | none => decide
    | some s => exact hvals s (lookup_mem_values _ _ _ hlk)
  refine ⟨by decide, ?_, hsf, ?_⟩
  · intro dominant trend hlk
    unfold suggestFor
    rw [hlk]
  · intro moods r h
    rw [(generate_ok_inv moods r h).2.2.2.2]
    exact hsf _ _

/-- Witness for C4: a pair without a table entry falls back to the default,
and the suggestion of a concrete successful generate call is non-empty. -/
theorem C4_suggestion_nonempty_witness :
    suggestFor "neutral" "improving" = DEFAULT_SUGGESTION ∧
    (InsightsResult.mk DEFAULT_SUGGESTION "worsening" "happy").suggestion ≠ "" :=
  ⟨C4_suggestion_nonempty.2.1 "neutral" "improving" (by decide),
   C4_suggestion_nonempty.2.2.2 ["happy", "happy", "sad", "stressed", "anxious"] _
     (by with_unfolding_all rfl)⟩

/-- C5: a history containing a label missing from the Valence table makes
generate fail with InternalFailure once past the length guard, and every
successful generate call had all its labels mapped — an unmapped label is
never silently given a default valence. -/
theorem C5_unmapped_label_fails :
    (∀ moods m, m ∈ moods → valence? m = none →
      MIN_ENTRIES_FOR_INSIGHTS ≤ moods.length →
      generate moods = .error .InternalFailure) ∧
    (∀ moods r, generate moods = .ok r → ∀ m ∈ moods, (valence? m).isSome) := by
  constructor
  · intro moods m hm hv hlen
    unfold generate
    rw [if_neg (by omega)]
    rw [← List.take_append_drop (moods.length / 2) moods] at hm
    rcases List.mem_append.mp hm with hmem | hmem
    · have h1 := sumValences_error_of_unmapped _ m hmem hv
      simp [meanValence, h1, Except.map, Bind.bind, Except.bind]
    · have h2 := sumValences_error_of_unmapped _ m hmem hv
      cases h1 : sumValences (moods.take (moods.length / 2)) with
      | error e =>
        have he := sumValences_error_inv _ e h1
        subst he
        simp [meanValence, h1, Except.map, Bind.bind, Except.bind]
      | ok s1 =>
        simp [meanValence, h1, h2, Except.map, Bind.bind, Except.bind]
  · intro moods r h
    exact (generate_ok_inv moods r h).2.1

/-- Witness for C5: a history with the unmapped label confused fails with
InternalFailure, and a successful call had its labels in the Valence table. -/
theorem C5_unmapped_label_fails_witness :
    generate ["happy", "happy", "confused"] = .error .InternalFailure ∧
    (valence? "sad").isSome := by
  constructor
  · exact C5_unmapped_label_fails.1 ["happy", "happy", "confused"] "confused"
      (by decide) (by decide) (by decide)
  · exact C5_unmapped_label_fails.2 ["sad", "anxious", "sad", "anxious"]
      ⟨"Persistent sadness can weigh on you. A brief journaling session about a good memory may help.",
        "stable", "sad"⟩
      (by with_unfolding_all rfl) "sad" (by decide)

/-- C6: analyze rejects with LengthExceeded every text longer than the
configured maximum (5000 by default), rejects with EmptyText every text that
is empty after trimming, and only texts that pass both checks are analyzed. -/
theorem C6_text_validation :
    MAX_TEXT_LENGTH = 5000 ∧
    (∀ classifier text, MAX_TEXT_LENGTH < text.length →
      analyze classifier text = .error .LengthExceeded) ∧
    (∀ classifier text, text.length ≤ MAX_TEXT_LENGTH → strippedEmpty text = true →
      analyze classifier text = .error .EmptyText) ∧
    (∀ classifier text r, analyze classifier text = .ok r →
      text.length ≤ MAX_TEXT_LENGTH ∧ strippedEmpty text = false) := by
  refine ⟨rfl, ?_, ?_, ?_⟩
  · intro classifier text hlen
    unfold analyze
    rw [if_pos hlen]
  · intro classifier text hlen hempty
    unfold analyze
    rw [if_neg (by omega), if_pos hempty]
  · intro classifier text r h
    exact ⟨(analyze_ok_inv classifier text r h).1,
      (analyze_ok_inv classifier text r h).2.1⟩

/-- Witness for C6: a 5001-character text is rejected with LengthExceeded and
an all-whitespace text is rejected with EmptyText. -/
theorem C6_text_validation_witness :
    analyze none (String.mk (List.replicate 5001 (Char.ofNat 97))) =
      .error .LengthExceeded ∧
    analyze none "   " = .error .EmptyText :=
  ⟨C6_text_validation.2.1 none _
      (by show MAX_TEXT_LENGTH < (List.replicate 5001 (Char.ofNat 97)).length
          rw [List.length_replicate]
          decide),
   C6_text_validation.2.2.1 none "   " (by decide) (by decide)⟩

/-- C7: on a valid text, a missing classifier makes analyze signal
ServiceUnavailable and a classifier that raises makes it signal
InternalFailure; the two conditions are distinct, and the HTTP layer of
main.py maps the missing-analyzer case to 503 and any analyzer exception to
500. -/
theorem C7_unavailable_vs_internal :
    (∀ text, text.length ≤ MAX_TEXT_LENGTH → strippedEmpty text = false →
      analyze none text = .error .ServiceUnavailable) ∧
    (∀ (classify : Classifier) text, text.length ≤ MAX_TEXT_LENGTH →
      strippedEmpty text = false → classify text = .error () →
      analyze (some classify) text = .error .InternalFailure) ∧
    SentimentError.ServiceUnavailable ≠ SentimentError.InternalFailure ∧
    (∀ text, analyze_sentiment none text =
      .error ⟨503, "Sentiment analysis service unavailable"⟩) ∧
    (∀ (classify : Classifier) text e, analyze (some classify) text = .error e →
      analyze_sentiment (some classify) text =
        .error ⟨500, "Failed to analyze sentiment"⟩) ∧
    (503 : Nat) ≠ 500 := by
  refine ⟨?_, ?_, by decide, fun text => rfl, ?_, by decide⟩
  · intro text hlen hempty
    unfold analyze
    rw [if_neg (by omega), if_neg (by simp [hempty])]
  · intro classify text hlen hempty hct
    unfold analyze
    rw [if_neg (by omega), if_neg (by simp [hempty])]
    simp only []
    rw [hct]
  · intro classify text e h
    unfold analyze_sentiment
    simp only []
    rw [h]

/-- Witness for C7: a valid text with no classifier yields
ServiceUnavailable, and with a raising classifier yields InternalFailure and
HTTP status 500. -/
theorem C7_unavailable_vs_internal_witness :
    analyze none "feeling fine" = .error .ServiceUnavailable ∧
    analyze (some (fun _ => .error ())) "feeling fine" = .error .InternalFailure ∧
    analyze_sentiment (some (fun _ => .error ())) "feeling fine" =
      .error ⟨500, "Failed to analyze sentiment"⟩ :=
  ⟨C7_unavailable_vs_internal.1 "feeling fine" (by decide) (by decide),
   C7_unavailable_vs_internal.2.1 (fun _ => .error ()) "feeling fine"
     (by decide) (by decide) rfl,
   C7_unavailable_vs_internal.2.2.2.2.1 (fun _ => .error ()) "feeling fine"
     .InternalFailure (by with_unfolding_all rfl)⟩

/-- C8: for every accepted text, the returned confidence is exactly the
score of the single top-scoring raw label of the classifier distribution —
a member of the distribution that no other entry exceeds, not renormalized —
and it lies in [0, 1] when the distribution does. -/
theorem C8_confidence_top_score :
    ∀ (classify : Classifier) text scores r,
      classify text = .ok scores →
      analyze (some classify) text = .ok r →
      (∀ q ∈ scores, 0 ≤ q.2 ∧ q.2 ≤ 1) →
      (∃ rawLabel, topScore scores = some (rawLabel, r.confidence) ∧
        (rawLabel, r.confidence) ∈ scores ∧
        ∀ q ∈ scores, q.2 ≤ r.confidence) ∧
      (0 ≤ r.confidence ∧ r.confidence ≤ 1) := by
  intro classify text scores r hct h hrange
  obtain ⟨-, -, classify2, scores2, rawLabel, heq, hct2, hts, -, -⟩ :=
    analyze_ok_inv _ _ _ h
  have hcc : classify2 = classify := (Option.some.inj heq).symm
  rw [hcc, hct] at hct2
  have hss : scores2 = scores := (Except.ok.inj hct2).symm
  rw [hss] at hts
  have hmem := topScore_mem _ _ hts
  refine ⟨⟨rawLabel, hts, hmem, fun q hq => topScore_max _ _ hts q hq⟩, ?_⟩
  exact ⟨(hrange _ hmem).1, (hrange _ hmem).2⟩

/-- Witness for C8 at a concrete two-label distribution with top score 9/10. -/
theorem C8_confidence_top_score_witness :
    (∃ rawLabel, topScore [("joy", (9:Rat)/10), ("sadness", 1/10)] =
        some (rawLabel, (9:Rat)/10) ∧
      (rawLabel, (9:Rat)/10) ∈ [("joy", (9:Rat)/10), ("sadness", 1/10)] ∧
      ∀ q ∈ [("joy", (9:Rat)/10), ("sadness", 1/10)], q.2 ≤ (9:Rat)/10) ∧
    (0 ≤ ((9:Rat)/10) ∧ ((9:Rat)/10) ≤ 1) :=
  C8_confidence_top_score (fun _ => .ok [("joy", 9/10), ("sadness", 1/10)]) "ok"
    [("joy", 9/10), ("sadness", 1/10)]
    ⟨"happy", 9/10, [("joy", 9/10), ("sadness", 1/10)]⟩
    rfl (by with_unfolding_all rfl) (by with_unfolding_all decide)

/-- C9: for every accepted text, the returned mood is a member of the closed
application mood vocabulary — never a raw classifier label outside it — the
returned emotions are the full classifier distribution, whose sum is within
the tolerance of 1 whenever the classifier distribution sums to 1; the raw
label set is totally mapped. -/
theorem C9_distribution_and_vocabulary :
    (∀ (classify : Classifier) text scores r,
      classify text = .ok scores →
      analyze (some classify) text = .ok r →
      (scores.map Prod.snd).sum = 1 →
      r.mood ∈ moodVocabulary ∧
      r.emotions = scores ∧
      |(r.emotions.map Prod.snd).sum - 1| ≤ TOLERANCE) ∧
    (∀ raw mood, mapLabel raw = some mood → mood ∈ moodVocabulary) ∧
    (∀ raw ∈ rawLabels, (mapLabel raw).isSome) := by
  have hsub : ∀ v ∈ rawToMood.map Prod.snd, v ∈ moodVocabulary := by decide
  have hmapvoc : ∀ raw mood, mapLabel raw = some mood → mood ∈ moodVocabulary :=
    fun raw mood h => hsub mood (lookup_mem_values _ _ _ h)
  refine ⟨?_, hmapvoc, by decide⟩
  intro classify text scores r hct h hsum
  obtain ⟨-, -, classify2, scores2, rawLabel, heq, hct2, -, hm, hem⟩ :=
    analyze_ok_inv _ _ _ h
  have hcc : classify2 = classify := (Option.some.inj heq).symm
  rw [hcc, hct] at hct2
  have hss : scores2 = scores := (Except.ok.inj hct2).symm
  rw [hss] at hem
  refine ⟨hmapvoc _ _ hm, hem, ?_⟩
  rw [hem, hsum]
  simp only [sub_self, abs_zero]
  norm_num [TOLERANCE]

/-- Witness for C9 at a concrete distribution summing to 1: the mood happy
is in the vocabulary and the emotions sum is within tolerance. -/
theorem C9_distribution_and_vocabulary_witness :
    ("happy" : String) ∈ moodVocabulary ∧
    ([("joy", (9:Rat)/10), ("sadness", 1/10)] : RawEmotionScores) =
      [("joy", (9:Rat)/10), ("sadness", 1/10)] ∧
    |(([("joy", (9:Rat)/10), ("sadness", 1/10)] : RawEmotionScores).map Prod.snd).sum - 1| ≤
      TOLERANCE :=
  C9_distribution_and_vocabulary.1 (fun _ => .ok [("joy", 9/10), ("sadness", 1/10)])
    "ok" [("joy", 9/10), ("sadness", 1/10)]
    ⟨"happy", 9/10, [("joy", 9/10), ("sadness", 1/10)]⟩
    rfl (by with_unfolding_all rfl) (by with_unfolding_all decide)

/-- C10: the health endpoint always returns status code 200 with body status
ok, and its model_loaded and insights_available fields are true exactly when
the corresponding module-level global is set. -/
theorem C10_health_endpoint :
    ∀ (sentiment_analyzer : Option Classifier) (insights_generator : Option Unit)
      (environment : String),
      (health_check sentiment_analyzer insights_generator environment).1 = 200 ∧
      (health_check sentiment_analyzer insights_generator environment).2.status = "ok" ∧
      ((health_check sentiment_analyzer insights_generator environment).2.model_loaded =
          true ↔ sentiment_analyzer ≠ none) ∧
      ((health_check sentiment_analyzer insights_generator environment).2.insights_available =
          true ↔ insights_generator ≠ none) := by
  intro sa ig env
  refine ⟨rfl, rfl, ?_, ?_⟩
  · simpa [health_check] using Option.isSome_iff_ne_none
  · simpa [health_check] using Option.isSome_iff_ne_none

end ReflectAI
